import Mathlib

/-
  Shallow embedding of the "simple_video_chat" Flask application
  (src/simple_video_chat/{models.py, app.py, telegram_service.py}).

  The relational state is embedded as Lean lists of row records; a
  "commit" of a mutated ORM object is embedded as an in-place update of
  the first row with the object's primary key (primary keys are unique
  in the database, and SQLite assigns ids starting at 1, never 0).
  Python truthiness tests (`if ephemeral_id:`, `if not user_id`,
  `if filename:`) are embedded explicitly via `truthyN` / `truthyS`.
  `werkzeug.utils.secure_filename` is external to the repository, so the
  handlers that call it are parameterized by a `sanitize` function.
-/

namespace TheSauce

/-- Update the first element of a list whose key equals `i`
(ORM: mutate the object fetched by primary key, then commit). -/
def updateFirstBy {α : Type} (key : α → Nat) (f : α → α) (i : Nat) : List α → List α
  | [] => []
  | x :: xs => if key x = i then f x :: xs else x :: updateFirstBy key f i xs

/-- Remove the first element of a list whose key equals `i`
(ORM: `db.session.delete` of the object fetched by primary key). -/
def eraseFirstBy {α : Type} (key : α → Nat) (i : Nat) : List α → List α
  | [] => []
  | x :: xs => if key x = i then xs else x :: eraseFirstBy key i xs

/-- Python truthiness of an optional integer: `None` and `0` are falsy. -/
def truthyN : Option Nat → Bool
  | none => false
  | some n => n != 0

/-- Python truthiness of an optional string: `None` and `""` are falsy. -/
def truthyS : Option String → Bool
  | none => false
  | some s => s != ""

/-- Characters of `filename.rsplit(".", 1)[1]`: everything after the last
dot (meaningful only when a dot is present, as Python short-circuits). -/
def afterLastDot (l : List Char) : List Char :=
  (l.reverse.takeWhile (fun c => c != '.')).reverse

/-- Embedding of `allowed_file` (app.py lines 63-65):
`"." in filename and filename.rsplit(".", 1)[1].lower() in allowed_extensions`.
The extension is taken after the last dot and lowercased per character. -/
def allowed_file (filename : String) (allowed_extensions : List String) : Bool :=
  filename.data.contains '.' &&
    allowed_extensions.contains
      (String.mk ((afterLastDot filename.data).map Char.toLower))

/-- Config.ALLOWED_IMAGE_EXTENSIONS. -/
def ALLOWED_IMAGE_EXTENSIONS : List String := ["png", "jpg", "jpeg", "gif", "webp"]

/-- Config.ALLOWED_VIDEO_EXTENSIONS. -/
def ALLOWED_VIDEO_EXTENSIONS : List String := ["mp4", "avi", "mov", "mkv", "webm"]

/-- Row of the `ephemeral_photos` table (models.py, class EphemeralPhoto).
`receiver_id` is carried as an `Option` because the route constructs the
object with `int(receiver_id) if receiver_id else None`; the column itself
is NOT NULL, which is enforced at commit time (see `upload_ephemeral`).
`conversation_id` is a nullable column. -/
structure EphemeralPhoto where
  id : Nat
  filename : String
  is_viewed : Bool
  is_sent_telegram : Bool
  sender_id : Nat
  receiver_id : Option Nat
  conversation_id : Option Nat
  deriving DecidableEq

/-- EphemeralPhoto.mark_as_viewed (models.py): set `is_viewed` to true. -/
def EphemeralPhoto.mark_as_viewed (e : EphemeralPhoto) : EphemeralPhoto :=
  { e with is_viewed := true }

/-- EphemeralPhoto.mark_as_sent_telegram (models.py). -/
def EphemeralPhoto.mark_as_sent_telegram (e : EphemeralPhoto) : EphemeralPhoto :=
  { e with is_sent_telegram := true }

/-- State of the ephemeral-photo subsystem: the `ephemeral_photos` table,
the set of file names present in the EPHEMERAL_FOLDER, and the next
primary key the database will assign. -/
structure EphState where
  photos : List EphemeralPhoto
  files : List String
  nextId : Nat
  deriving DecidableEq

/-- EphemeralPhoto.query.get: fetch by primary key. -/
def findPhoto (s : EphState) (i : Nat) : Option EphemeralPhoto :=
  s.photos.find? (fun e => e.id == i)

/-- Deletion of a file from the ephemeral folder
(`os.remove` guarded by `os.path.exists`, exceptions swallowed):
afterwards no file of that name remains; removing an absent file is a no-op. -/
def removeFile (name : String) (files : List String) : List String :=
  files.filter (fun f => f != name)

/-- Payload of the `photo_viewed` socket event (untyped key/value bundle). -/
structure PhotoViewedData where
  ephemeral_id : Option Nat
  filename : Option String
  deriving DecidableEq

/-- Embedding of `handle_photo_viewed` (app.py lines 1244-1276).
`sanitize` stands for `werkzeug.utils.secure_filename`;
`session_user` is `session.get("user_id")`. The handler emits nothing and
returns nothing to the caller on any path; its only effect is the state. -/
def handle_photo_viewed (sanitize : String → String) (session_user : Option Nat)
    (data : PhotoViewedData) (s : EphState) : EphState :=
  if !truthyN session_user then s
  else
    let step : Option (EphState × Option String) :=
      if truthyN data.ephemeral_id then
        match findPhoto s (data.ephemeral_id.getD 0) with
        | some ephemeral =>
          if ephemeral.receiver_id != session_user then
            none
          else
            let photos1 := updateFirstBy EphemeralPhoto.id EphemeralPhoto.mark_as_viewed
              (data.ephemeral_id.getD 0) s.photos
            some ({ s with photos := photos1 }, some ephemeral.filename)
        | none => some (s, data.filename)
      else some (s, data.filename)
    match step with
    | none => s
    | some (s1, filename) =>
      if truthyS filename then
        { s1 with files := removeFile (sanitize (filename.getD "")) s1.files }
      else s1

/-- Form/multipart content of a POST to `/upload_ephemeral`:
`photo` is the uploaded file's client filename (`none` when the "photo"
part is absent from `request.files`); `conversation_id` and `receiver_id`
are the form fields, already passed through Python's
`int(x) if x else None` (absent or empty form value becomes `none`). -/
structure UploadRequest where
  photo : Option String
  conversation_id : Option Nat
  receiver_id : Option Nat
  deriving DecidableEq

/-- Outcome of `upload_ephemeral` as seen by the HTTP caller. -/
inductive UploadResult where
  /-- 200 JSON success with filename, url and ephemeral_id. -/
  | created (ephemeral_id : Nat) (filename : String)
  /-- 400 JSON with success false and an error message. -/
  | badRequest (error : String)
  /-- `db.session.commit()` raised IntegrityError (NOT NULL column
  receiver_id was None): unhandled, surfaces as a 500; no row persisted. -/
  | integrityError
  deriving DecidableEq

/-- Embedding of `upload_ephemeral` (app.py lines 796-887).
`user_id` is the logged-in caller's id (`login_required` guarantees one);
`fresh` is the generated `uuid4().hex + "_" + secure_filename(orig)` name;
`telegramSent` abstracts the fire-and-forget notifier block: `some true`
when an admin chat id was resolved and `send_photo_sync` reported success
(then `mark_as_sent_telegram` runs), anything else leaves the flag false.
The file is written before the row is inserted, so a failed insert leaves
the file behind (the accepted best-effort gap). -/
def upload_ephemeral (user_id : Nat) (req : UploadRequest) (fresh : String)
    (telegramSent : Option Bool) (s : EphState) : UploadResult × EphState :=
  match req.photo with
  | none => (.badRequest "Aucun fichier", s)
  | some origName =>
    if origName = "" then (.badRequest "Aucun fichier sélectionné", s)
    else if allowed_file origName ALLOWED_IMAGE_EXTENSIONS then
      let s1 : EphState := { s with files := fresh :: s.files }
      let ephemeral : EphemeralPhoto :=
        { id := s.nextId
          filename := fresh
          is_viewed := false
          is_sent_telegram := false
          sender_id := user_id
          receiver_id := req.receiver_id
          conversation_id := req.conversation_id }
      if ephemeral.receiver_id.isSome then
        let ephemeral :=
          if telegramSent = some true then ephemeral.mark_as_sent_telegram else ephemeral
        (.created ephemeral.id ephemeral.filename,
         { s1 with photos := s1.photos ++ [ephemeral], nextId := s1.nextId + 1 })
      else
        (.integrityError, s1)
    else (.badRequest "Format non autorisé", s)

/-- Outcome of `delete_ephemeral` as seen by the HTTP caller. -/
inductive DeleteResult where
  /-- 200 JSON success true. -/
  | ok
  /-- 404 JSON success false, "Photo non trouvée". -/
  | notFound
  deriving DecidableEq

/-- Embedding of `delete_ephemeral` (app.py lines 890-913): fetch the row
by primary key; when present, best-effort remove the sanitized file and
delete the row; when absent, answer 404. The only guard is
`login_required` (callers are authenticated, nothing else is checked). -/
def delete_ephemeral (sanitize : String → String) (ephemeral_id : Nat)
    (s : EphState) : DeleteResult × EphState :=
  match findPhoto s ephemeral_id with
  | some ephemeral =>
    (.ok, { s with
              photos := eraseFirstBy EphemeralPhoto.id ephemeral_id s.photos,
              files := removeFile (sanitize ephemeral.filename) s.files })
  | none => (.notFound, s)

/-- The claim-relevant columns of a row of the `users` table. -/
structure UserRec where
  id : Nat
  role : String
  deriving DecidableEq

/-- User.is_admin (models.py): string comparison on the role column. -/
def UserRec.is_admin (u : UserRec) : Bool := u.role == "admin"

/-- The claim-relevant columns of a row of the `publications` table
(models.py, class Publication). -/
structure Publication where
  id : Nat
  status : String
  views : Nat
  likes : Nat
  user_id : Nat
  category_id : Option Nat
  deriving DecidableEq

/-- Publication.increment_views (models.py). -/
def Publication.increment_views (p : Publication) : Publication :=
  { p with views := p.views + 1 }

/-- Publication.increment_likes (models.py). -/
def Publication.increment_likes (p : Publication) : Publication :=
  { p with likes := p.likes + 1 }

/-- Publication.approve (models.py): set status to "approved". -/
def Publication.approve (p : Publication) : Publication :=
  { p with status := "approved" }

/-- Publication.reject (models.py): set status to "rejected". -/
def Publication.reject (p : Publication) : Publication :=
  { p with status := "rejected" }

/-- Row of the `likes` table (models.py, class Like): the unique
(user_id, publication_id) pair. -/
structure LikeRow where
  user_id : Nat
  publication_id : Nat
  deriving DecidableEq

/-- Row of the `views` table (models.py, class View): `user_id` and
`session_id` are nullable, `ip_address` is recorded but never queried. -/
structure ViewRow where
  user_id : Option Nat
  publication_id : Nat
  session_id : Option String
  ip_address : Option String
  deriving DecidableEq

/-- Row of the `notifications` table, claim-relevant columns. -/
structure NotifRow where
  user_id : Nat
  typ : String
  content : String
  sender_id : Option Nat
  publication_id : Option Nat
  deriving DecidableEq

/-- State of the publication subsystem: the `publications`, `likes`,
`views` and `notifications` tables plus the next publication primary key. -/
structure Store where
  publications : List Publication
  likes : List LikeRow
  views : List ViewRow
  notifications : List NotifRow
  nextPubId : Nat
  deriving DecidableEq

/-- Publication.query.get: fetch by primary key. -/
def findPub (s : Store) (i : Nat) : Option Publication :=
  s.publications.find? (fun p => p.id == i)

/-- Notification.create_notification (models.py lines 497-515): refuse to
notify oneself (`if sender_id and sender_id == user_id: return None`),
otherwise append the row. -/
def create_notification (s : Store) (user_id : Nat) (typ content : String)
    (sender_id : Option Nat) (publication_id : Option Nat) : Store :=
  if truthyN sender_id && sender_id == some user_id then s
  else { s with notifications :=
          s.notifications ++ [⟨user_id, typ, content, sender_id, publication_id⟩] }

/-- View.has_viewed (models.py lines 355-368): dedupe by user when
`user_id` is truthy, else by session token when `session_id` is truthy,
else report not-viewed. -/
def has_viewed (s : Store) (publication_id : Nat) (user_id : Option Nat)
    (session_id : Option String) : Bool :=
  if truthyN user_id then
    s.views.any (fun v => v.user_id == user_id && v.publication_id == publication_id)
  else if truthyS session_id then
    s.views.any (fun v => v.session_id == session_id && v.publication_id == publication_id)
  else false

/-- View.add_view (models.py lines 370-390): no-op returning false when
already viewed, otherwise insert the row and return true. (The
try/except around the flush only guards backend errors; the `views`
table has no unique constraint, so the insert itself cannot conflict.) -/
def add_view (s : Store) (publication_id : Nat) (user_id : Option Nat)
    (session_id : Option String) (ip_address : Option String) : Bool × Store :=
  if has_viewed s publication_id user_id session_id then (false, s)
  else (true, { s with views :=
          s.views ++ [⟨user_id, publication_id, session_id, ip_address⟩] })

/-- The access check of the `watch` route (app.py lines 521-529): a
non-approved publication is withheld unless the caller is its owner or
an admin. -/
def watch_denied (current_user : Option UserRec) (publication : Publication) : Bool :=
  publication.status != "approved" &&
    (match current_user with
     | none => true
     | some u => u.id != publication.user_id && !u.is_admin)

/-- Embedding of the `watch` route (app.py lines 512-558).
`current_user` is the session's user row (none for anonymous visitors);
`visitor_token` is `session["visitor_id"]` after the route generates it
(a uuid4 string, hence nonempty in any real session). A missing
publication or a non-approved one shown to a stranger redirects without
touching the database; otherwise a deduplicated view is recorded and the
denormalized counter incremented together. -/
def watch (current_user : Option UserRec) (visitor_token : String)
    (remote_addr : String) (pub_id : Nat) (s : Store) : Store :=
  match findPub s pub_id with
  | none => s
  | some publication =>
    if watch_denied current_user publication then s
    else
      let user_id : Option Nat := current_user.map UserRec.id
      let session_id : Option String :=
        if !truthyN user_id then some visitor_token else none
      let r := add_view s pub_id user_id session_id (some remote_addr)
      if r.1 then
        let pubs := updateFirstBy Publication.id Publication.increment_views pub_id
          r.2.publications
        { r.2 with publications := pubs }
      else r.2

/-- Outcome of the `like` route as seen by the HTTP caller. -/
inductive LikeResult where
  /-- 200 JSON success with the new likes counter. -/
  | ok (likes : Nat)
  /-- 404 JSON success false. -/
  | notFound
  /-- 400 JSON success false, error "Déjà liké". -/
  | alreadyLiked
  deriving DecidableEq

/-- Lookup of `Like.query.filter_by(user_id=..., publication_id=...)`:
whether a Like row for the pair exists. -/
def existing_like (s : Store) (user_id pub_id : Nat) : Bool :=
  s.likes.any (fun l => l.user_id == user_id && l.publication_id == pub_id)

/-- Embedding of the `like` route (app.py lines 561-607). `user` is the
logged-in caller (`login_required`). A missing publication answers 404;
an existing (user, publication) Like row answers a 400 conflict with no
state change; otherwise the Like row, the counter increment and the
author notification commit together. -/
def like (user : UserRec) (pub_id : Nat) (s : Store) : LikeResult × Store :=
  match findPub s pub_id with
  | none => (.notFound, s)
  | some publication =>
    if existing_like s user.id pub_id then
      (.alreadyLiked, s)
    else
      let s1 : Store := { s with likes := s.likes ++ [⟨user.id, pub_id⟩] }
      let pubs2 := updateFirstBy Publication.id Publication.increment_likes pub_id
        s1.publications
      let s2 : Store := { s1 with publications := pubs2 }
      let s3 : Store :=
        if publication.user_id != user.id then
          create_notification s2 publication.user_id "like" "a aimé votre vidéo"
            (some user.id) (some pub_id)
        else s2
      (.ok (publication.likes + 1), s3)

/-- Embedding of the publication-creating branch of the `upload` route
(app.py lines 445-509): a well-formed video upload by a logged-in user
appends a Publication row with status "pending"; validation failures
redirect without touching the table. -/
def upload (user : UserRec) (videoFile : Option String) (category_id : Option Nat)
    (s : Store) : Store :=
  match videoFile with
  | none => s
  | some origName =>
    if origName = "" then s
    else if allowed_file origName ALLOWED_VIDEO_EXTENSIONS then
      let publication : Publication :=
        { id := s.nextPubId
          status := "pending"
          views := 0
          likes := 0
          user_id := user.id
          category_id := category_id }
      { s with publications := s.publications ++ [publication],
               nextPubId := s.nextPubId + 1 }
    else s

/-- Embedding of `admin_approve_publication` (app.py lines 1017-1028)
together with its `admin_required` decorator: an anonymous or non-admin
caller is redirected away with no state change; an admin sets the fetched
publication's status to "approved" (no-op when the id is unknown). -/
def admin_approve_publication (caller : Option UserRec) (pub_id : Nat)
    (s : Store) : Store :=
  match caller with
  | none => s
  | some u =>
    if !u.is_admin then s
    else
      match findPub s pub_id with
      | none => s
      | some _ =>
        { s with publications :=
            updateFirstBy Publication.id Publication.approve pub_id s.publications }

/-- Embedding of `admin_reject_publication` (app.py lines 1031-1042)
together with its `admin_required` decorator. -/
def admin_reject_publication (caller : Option UserRec) (pub_id : Nat)
    (s : Store) : Store :=
  match caller with
  | none => s
  | some u =>
    if !u.is_admin then s
    else
      match findPub s pub_id with
      | none => s
      | some _ =>
        { s with publications :=
            updateFirstBy Publication.id Publication.reject pub_id s.publications }

/-- Row of the `conversations` table (models.py, class Conversation). -/
structure Conversation where
  id : Nat
  user1_id : Nat
  user2_id : Nat
  deriving DecidableEq

/-- State of the conversation table plus the next primary key. -/
structure ConvState where
  convs : List Conversation
  nextId : Nat
  deriving DecidableEq

/-- Conversation.get_or_create (models.py lines 192-206): canonicalize the
pair by swapping when `user1_id > user2_id`, look the canonical pair up,
and lazily create the row when absent. -/
def Conversation.get_or_create (user1_id user2_id : Nat) (s : ConvState) :
    Conversation × ConvState :=
  let a := if user1_id > user2_id then user2_id else user1_id
  let b := if user1_id > user2_id then user1_id else user2_id
  match s.convs.find? (fun c => c.user1_id == a && c.user2_id == b) with
  | some conv => (conv, s)
  | none =>
    let conv : Conversation := ⟨s.nextId, a, b⟩
    (conv, { convs := s.convs ++ [conv], nextId := s.nextId + 1 })

/-- Parsed JSON body of a Telegram Bot API reply (`response.json()`), the
fields the service reads: `ok`, the error `description` (absent on some
failures — `result.get("description")` then yields Python None) and the
`result` payload, carried opaquely. -/
structure TgResponse where
  ok : Bool
  description : Option String
  result : Option (List String)
  deriving DecidableEq

/-- Runtime outcome of the body of `send_photo_sync`: the file open can
raise FileNotFoundError, the HTTP post can raise a RequestException or
any other exception, or a response is parsed. All three raises are
caught by the function's except clauses. -/
inductive PhotoOutcome where
  | fileNotFound
  | requestException (msg : String)
  | otherException (msg : String)
  | response (r : TgResponse)
  deriving DecidableEq

/-- Runtime outcome of the bodies of `send_message_sync` / `get_updates`:
any exception (caught by the single `except Exception`) or a response. -/
inductive HttpOutcome where
  | exception (msg : String)
  | response (r : TgResponse)
  deriving DecidableEq

/-- Value of an entry of a returned Python dict. -/
inductive Val where
  | vBool (b : Bool)
  | vStr (s : String)
  /-- Python None (e.g. a missing API error description). -/
  | vNone
  | vResp (r : TgResponse)
  | vList (l : List String)
  deriving DecidableEq

/-- A returned Python dict: ordered key/value pairs. -/
def PyDict := List (String × Val)

/-- Lookup of a key in a returned dict. -/
def PyDict.get (d : PyDict) (k : String) : Option Val :=
  (d.find? (fun kv => kv.1 == k)).map (fun kv => kv.2)

/-- Embedding of Python `x if x is not None else vNone` for the error
value `result.get("description")`. -/
def optVal : Option String → Val
  | none => .vNone
  | some s => .vStr s

/-- The caption block of `send_photo_sync` (telegram_service.py lines
55-59): an explicit caption wins; otherwise a default is built, with a
sender-specific variant when `sender_name` is given. -/
def resolveCaption (caption sender_name : Option String) : String :=
  match caption with
  | some c => c
  | none =>
    match sender_name with
    | some n => "[PHOTO] Photo ephemere de " ++ n ++
        "\n[!] Cette photo s'autodetruira apres visionnage"
    | none => "[PHOTO] Photo ephemere de The Sauce"

/-- Embedding of `TelegramService.send_photo_sync` (telegram_service.py
lines 34-81). The network is abstracted as `outcome`, a function of the
caption actually sent. Every exception path is converted to a
success-false dict; nothing escapes. -/
def send_photo_sync (_chat_id _photo_path : String) (caption sender_name : Option String)
    (outcome : String → PhotoOutcome) : PyDict :=
  match outcome (resolveCaption caption sender_name) with
  | .fileNotFound => [("success", .vBool false), ("error", .vStr "Fichier photo non trouvé")]
  | .requestException msg => [("success", .vBool false), ("error", .vStr msg)]
  | .otherException msg => [("success", .vBool false), ("error", .vStr msg)]
  | .response r =>
    if r.ok then [("success", .vBool true), ("result", .vResp r)]
    else [("success", .vBool false), ("error", optVal r.description)]

/-- Embedding of `TelegramService.send_message_sync` (telegram_service.py
lines 144-174). -/
def send_message_sync (_chat_id _text _parse_mode : String)
    (outcome : HttpOutcome) : PyDict :=
  match outcome with
  | .exception msg => [("success", .vBool false), ("error", .vStr msg)]
  | .response r =>
    if r.ok then [("success", .vBool true), ("result", .vResp r)]
    else [("success", .vBool false), ("error", optVal r.description)]

/-- Embedding of `TelegramService.get_updates` (telegram_service.py lines
197-222): on success the dict carries `updates`, defaulted to the empty
list when the API result field is absent. -/
def get_updates (_offset : Nat) (outcome : HttpOutcome) : PyDict :=
  match outcome with
  | .exception msg => [("success", .vBool false), ("error", .vStr msg)]
  | .response r =>
    if r.ok then [("success", .vBool true), ("updates", .vList (r.result.getD []))]
    else [("success", .vBool false), ("error", optVal r.description)]

/-- Database well-formedness of the ephemeral table: SQLite primary keys
start at 1, so no stored row has id 0. -/
def EphState.wf (s : EphState) : Prop := ∀ e ∈ s.photos, e.id ≠ 0

/-- Key-preserving updates commute with primary-key lookup: updating the
first row with key `i` by a key-preserving `f` makes the lookup of `i`
return the updated row. -/
theorem find?_updateFirstBy {α : Type} (key : α → Nat) (f : α → α) (i : Nat)
    (hk : ∀ x, key (f x) = key x) (l : List α) :
    (updateFirstBy key f i l).find? (fun x => key x == i) =
      (l.find? (fun x => key x == i)).map f := by
  induction l with
  | nil => simp [updateFirstBy]
  | cons x xs ih =>
    by_cases h : key x = i
    · rw [updateFirstBy, if_pos h, List.find?_cons_of_pos, List.find?_cons_of_pos]
      · simp
      · simp [h]
      · simp [hk, h]
    · rw [updateFirstBy, if_neg h, List.find?_cons_of_neg, List.find?_cons_of_neg, ih]
      · simp [h]
      · simp [h]

/-- Lookup misses every row the update does not touch: rows with a
different key are unchanged, stated via the whole-list lookup. -/
theorem find?_updateFirstBy_ne {α : Type} (key : α → Nat) (f : α → α) (i j : Nat)
    (hk : ∀ x, key (f x) = key x) (hij : j ≠ i) (l : List α) :
    (updateFirstBy key f i l).find? (fun x => key x == j) =
      l.find? (fun x => key x == j) := by
  induction l with
  | nil => simp [updateFirstBy]
  | cons x xs ih =>
    by_cases h : key x = i
    · rw [updateFirstBy, if_pos h]
      by_cases hj : key x = j
      · exact absurd (hj.symm.trans h) hij
      · rw [List.find?_cons_of_neg, List.find?_cons_of_neg] <;> simp [hk, hj]
    · rw [updateFirstBy, if_neg h]
      by_cases hj : key x = j
      · rw [List.find?_cons_of_pos, List.find?_cons_of_pos] <;> simp [hj]
      · rw [List.find?_cons_of_neg, List.find?_cons_of_neg, ih] <;> simp [hj]

/-- CLAIM C1. For every ephemeral photo P (fetched under id `eid`) and
every authenticated caller whose user id differs from P's receiver_id, a
`photo_viewed` event carrying P's id — whatever filename field it also
carries — leaves the entire ephemeral state unchanged: `is_viewed` is not
touched, the backing file stays, and the handler signals nothing (its
only channel is the returned state). `hid` reflects that stored primary
keys are nonzero. -/
theorem photo_viewed_non_receiver_noop (sanitize : String → String)
    (caller eid : Nat) (fn : Option String) (s : EphState) (P : EphemeralPhoto)
    (hid : eid ≠ 0)
    (hP : findPhoto s eid = some P)
    (hne : P.receiver_id ≠ some caller) :
    handle_photo_viewed sanitize (some caller) ⟨some eid, fn⟩ s = s := by
  by_cases hc : caller = 0
  · simp [handle_photo_viewed, truthyN, hc]
  · have hb1 : truthyN (some caller) = true := by simp [truthyN, hc]
    have hb2 : truthyN (some eid) = true := by simp [truthyN, hid]
    have hb3 : (P.receiver_id != some caller) = true := by simpa using hne
    simp [handle_photo_viewed, hb1, hb2, hP, hb3]

/-- Witness for C1 at a concrete state: photo 1 is addressed to user 2,
user 5 acknowledges it (also passing the filename), nothing changes. -/
theorem photo_viewed_non_receiver_noop_witness :
    findPhoto ⟨[⟨1, "f.png", false, false, 3, some 2, none⟩], ["f.png"], 2⟩ 1 =
        some ⟨1, "f.png", false, false, 3, some 2, none⟩ ∧
      handle_photo_viewed id (some 5) ⟨some 1, some "f.png"⟩
        ⟨[⟨1, "f.png", false, false, 3, some 2, none⟩], ["f.png"], 2⟩ =
        ⟨[⟨1, "f.png", false, false, 3, some 2, none⟩], ["f.png"], 2⟩ :=
  ⟨by decide,
   photo_viewed_non_receiver_noop id 5 1 (some "f.png")
     ⟨[⟨1, "f.png", false, false, 3, some 2, none⟩], ["f.png"], 2⟩
     ⟨1, "f.png", false, false, 3, some 2, none⟩
     (by decide) (by decide) (by decide)⟩

/-- CLAIM C2. A `photo_viewed` event from any authenticated caller whose
`ephemeral_id` is absent (or matches no stored row) but which carries a
filename F deletes the file F from the ephemeral folder — whoever the
caller is — and modifies no EphemeralPhoto row. (`hs` pins the external
sanitizer on F, `hF` excludes the falsy empty string.) -/
theorem photo_viewed_filename_deletes_file (sanitize : String → String)
    (caller : Nat) (F : String) (eid? : Option Nat) (s : EphState)
    (hc : caller ≠ 0)
    (hF : F ≠ "")
    (hs : sanitize F = F)
    (hmiss : ∀ e, eid? = some e → findPhoto s e = none) :
    handle_photo_viewed sanitize (some caller) ⟨eid?, some F⟩ s =
        { s with files := removeFile F s.files } ∧
      F ∉ (handle_photo_viewed sanitize (some caller) ⟨eid?, some F⟩ s).files := by
  have hmain : handle_photo_viewed sanitize (some caller) ⟨eid?, some F⟩ s =
      { s with files := removeFile F s.files } := by
    simp only [handle_photo_viewed, truthyN]
    rw [if_neg (by simpa using hc)]
    match heid : eid? with
    | none => simp [truthyS, hF, hs]
    | some e =>
      by_cases he : e = 0
      · simp [he, truthyS, hF, hs]
      · simp [he, hmiss e rfl, truthyS, hF, hs]
  refine ⟨hmain, ?_⟩
  rw [hmain]
  simp [removeFile, List.mem_filter]

/-- Witness for C2: user 9 sends a bare filename with no ephemeral id on
an empty table; the file disappears. -/
theorem photo_viewed_filename_deletes_file_witness :
    (9 : Nat) ≠ 0 ∧
      handle_photo_viewed id (some 9) ⟨none, some "g.png"⟩ ⟨[], ["g.png"], 1⟩ =
          { photos := [], files := [], nextId := 1 } ∧
        "g.png" ∉ (handle_photo_viewed id (some 9) ⟨none, some "g.png"⟩
          ⟨[], ["g.png"], 1⟩).files := by
  refine ⟨by decide, ?_⟩
  have h := photo_viewed_filename_deletes_file id 9 "g.png" none ⟨[], ["g.png"], 1⟩
    (by decide) (by decide) rfl (by intro e he; cases he)
  simpa [removeFile] using h

/-- CLAIM C3. When the recorded receiver acknowledges an unviewed photo,
the row's `is_viewed` flag becomes true and the backing file is removed
from the ephemeral folder. -/
theorem photo_viewed_receiver_marks_and_deletes (sanitize : String → String)
    (caller eid : Nat) (fn : Option String) (s : EphState) (P : EphemeralPhoto)
    (hc : caller ≠ 0)
    (hid : eid ≠ 0)
    (hP : findPhoto s eid = some P)
    (hrecv : P.receiver_id = some caller)
    (_hviewed : P.is_viewed = false)
    (hsan : sanitize P.filename = P.filename)
    (hfn : P.filename ≠ "") :
    findPhoto (handle_photo_viewed sanitize (some caller) ⟨some eid, fn⟩ s) eid =
        some P.mark_as_viewed ∧
      P.filename ∉ (handle_photo_viewed sanitize (some caller) ⟨some eid, fn⟩ s).files := by
  have hstep : handle_photo_viewed sanitize (some caller) ⟨some eid, fn⟩ s =
      { s with
          photos := updateFirstBy EphemeralPhoto.id EphemeralPhoto.mark_as_viewed eid s.photos,
          files := removeFile P.filename s.files } := by
    have hb1 : truthyN (some caller) = true := by simp [truthyN, hc]
    have hb2 : truthyN (some eid) = true := by simp [truthyN, hid]
    have hb3 : (P.receiver_id != some caller) = false := by simp [hrecv]
    have hb4 : truthyS (some P.filename) = true := by simp [truthyS, hfn]
    simp [handle_photo_viewed, hb1, hb2, hP, hb3, hb4, hsan]
  rw [hstep]
  constructor
  · show (updateFirstBy EphemeralPhoto.id EphemeralPhoto.mark_as_viewed eid
        s.photos).find? (fun e => e.id == eid) = _
    rw [find?_updateFirstBy EphemeralPhoto.id EphemeralPhoto.mark_as_viewed eid
      (fun _ => rfl) s.photos]
    rw [show s.photos.find? (fun e => e.id == eid) = some P from hP]
    rfl
  · simp [removeFile, List.mem_filter]

/-- Witness for C3: receiver 2 acknowledges photo 1; the row is marked
viewed and the file is gone. -/
theorem photo_viewed_receiver_marks_and_deletes_witness :
    findPhoto ⟨[⟨1, "f.png", false, false, 3, some 2, none⟩], ["f.png"], 2⟩ 1 =
        some ⟨1, "f.png", false, false, 3, some 2, none⟩ ∧
      findPhoto (handle_photo_viewed id (some 2) ⟨some 1, none⟩
          ⟨[⟨1, "f.png", false, false, 3, some 2, none⟩], ["f.png"], 2⟩) 1 =
        some ⟨1, "f.png", true, false, 3, some 2, none⟩ ∧
      "f.png" ∉ (handle_photo_viewed id (some 2) ⟨some 1, none⟩
          ⟨[⟨1, "f.png", false, false, 3, some 2, none⟩], ["f.png"], 2⟩).files := by
  refine ⟨by decide, ?_⟩
  have h := photo_viewed_receiver_marks_and_deletes id 2 1 none
    ⟨[⟨1, "f.png", false, false, 3, some 2, none⟩], ["f.png"], 2⟩
    ⟨1, "f.png", false, false, 3, some 2, none⟩
    (by decide) (by decide) (by decide) rfl rfl rfl (by decide)
  exact h

/-- COUNTEREXAMPLE to C4 as stated: an upload request that carries a
receiver but no conversation_id still creates an EphemeralPhoto row (the
conversation column is nullable and the route accepts its absence). -/
theorem upload_ephemeral_no_conversation_creates_row :
    (upload_ephemeral 1 ⟨some "a.png", none, some 2⟩ "x_a.png" none
        ⟨[], [], 1⟩).2.photos =
      [⟨1, "x_a.png", false, false, 1, some 2, none⟩] := by
  decide

/-- CLAIM C4, amended. Ephemeral photo creation requires a receiver but
not a conversation: a request without receiver_id persists no
EphemeralPhoto row (the insert violates the NOT NULL receiver column),
while a well-formed request without conversation_id creates the row with
a null conversation. -/
theorem upload_ephemeral_receiver_required (user_id : Nat) (req : UploadRequest)
    (fresh : String) (telegramSent : Option Bool) (s : EphState) :
    (req.receiver_id = none →
      ((upload_ephemeral user_id req fresh telegramSent s).2).photos = s.photos) ∧
    (∀ orig r, req.photo = some orig → orig ≠ "" →
      allowed_file orig ALLOWED_IMAGE_EXTENSIONS = true →
      req.receiver_id = some r →
      ∃ e, (upload_ephemeral user_id req fresh telegramSent s).2.photos =
          s.photos ++ [e] ∧
        e.receiver_id = some r ∧
        e.conversation_id = req.conversation_id ∧
        e.is_viewed = false) := by
  constructor
  · intro hrec
    match hphoto : req.photo with
    | none => simp [upload_ephemeral, hphoto]
    | some orig =>
      by_cases ho : orig = ""
      · simp [upload_ephemeral, hphoto, ho]
      · by_cases ha : allowed_file orig ALLOWED_IMAGE_EXTENSIONS
        · simp [upload_ephemeral, hphoto, ho, ha, hrec]
        · simp [upload_ephemeral, hphoto, ho, ha]
  · intro orig r hphoto ho ha hrec
    by_cases htg : telegramSent = some true
    · refine ⟨⟨s.nextId, fresh, false, true, user_id, some r, req.conversation_id⟩, ?_⟩
      simp [upload_ephemeral, hphoto, ho, ha, hrec, htg,
        EphemeralPhoto.mark_as_sent_telegram]
    · refine ⟨⟨s.nextId, fresh, false, false, user_id, some r, req.conversation_id⟩, ?_⟩
      simp [upload_ephemeral, hphoto, ho, ha, hrec, htg]

/-- Witness for the amended C4: a receiverless request persists nothing;
a receiver-only request (no conversation) persists the row. -/
theorem upload_ephemeral_receiver_required_witness :
    ((upload_ephemeral 1 ⟨some "a.png", some 7, none⟩ "y_a.png" none
        ⟨[], [], 1⟩).2).photos = [] ∧
      ∃ e, (upload_ephemeral 1 ⟨some "a.png", none, some 2⟩ "x_a.png" none
          ⟨[], [], 1⟩).2.photos = [] ++ [e] ∧
        e.receiver_id = some 2 ∧ e.conversation_id = none ∧ e.is_viewed = false := by
  constructor
  · exact (upload_ephemeral_receiver_required 1 ⟨some "a.png", some 7, none⟩
      "y_a.png" none ⟨[], [], 1⟩).1 rfl
  · exact (upload_ephemeral_receiver_required 1 ⟨some "a.png", none, some 2⟩
      "x_a.png" none ⟨[], [], 1⟩).2 "a.png" 2 rfl (by decide) (by decide) rfl

/-- COUNTEREXAMPLE to C5 as stated: deleting an ephemeral id whose record
is already gone does fail the operation — the route answers the 404
"Photo non trouvée" failure instead of succeeding. -/
theorem delete_ephemeral_missing_record_fails :
    (delete_ephemeral id 1 ⟨[], [], 1⟩).1 = DeleteResult.notFound ∧
      (delete_ephemeral id 1 ⟨[], [], 1⟩).1 ≠ DeleteResult.ok := by
  decide

/-- CLAIM C5, amended. Explicit deletion is idempotent with respect to
the backing file but not the record: when the record exists the route
succeeds and removes both record and file — also when the file is
already gone — and when the record is gone it fails with a 404 and
changes nothing. -/
theorem delete_ephemeral_props (sanitize : String → String) (ephemeral_id : Nat)
    (s : EphState) :
    (∀ P, findPhoto s ephemeral_id = some P →
      (delete_ephemeral sanitize ephemeral_id s).1 = DeleteResult.ok ∧
      (delete_ephemeral sanitize ephemeral_id s).2.photos =
        eraseFirstBy EphemeralPhoto.id ephemeral_id s.photos ∧
      sanitize P.filename ∉ (delete_ephemeral sanitize ephemeral_id s).2.files) ∧
    (findPhoto s ephemeral_id = none →
      delete_ephemeral sanitize ephemeral_id s = (DeleteResult.notFound, s)) := by
  constructor
  · intro P hP
    refine ⟨?_, ?_, ?_⟩ <;>
      simp [delete_ephemeral, hP, removeFile, List.mem_filter]
  · intro hnone
    simp [delete_ephemeral, hnone]

/-- Witness for the amended C5: record present but file already gone —
deletion still succeeds; empty table — deletion answers 404. -/
theorem delete_ephemeral_props_witness :
    ((delete_ephemeral id 1
        ⟨[⟨1, "f.png", false, false, 3, some 2, none⟩], [], 2⟩).1 = DeleteResult.ok ∧
      (delete_ephemeral id 1
        ⟨[⟨1, "f.png", false, false, 3, some 2, none⟩], [], 2⟩).2.photos =
        eraseFirstBy EphemeralPhoto.id 1 [⟨1, "f.png", false, false, 3, some 2, none⟩] ∧
      id "f.png" ∉ (delete_ephemeral id 1
        ⟨[⟨1, "f.png", false, false, 3, some 2, none⟩], [], 2⟩).2.files) ∧
      delete_ephemeral id 1 ⟨[], [], 1⟩ = (DeleteResult.notFound, ⟨[], [], 1⟩) := by
  constructor
  · exact (delete_ephemeral_props id 1
      ⟨[⟨1, "f.png", false, false, 3, some 2, none⟩], [], 2⟩).1
      ⟨1, "f.png", false, false, 3, some 2, none⟩ rfl
  · exact (delete_ephemeral_props id 1 ⟨[], [], 1⟩).2 rfl

/-- Number of Like rows stored for a (user, publication) pair. -/
def likeCount (s : Store) (user_id pub_id : Nat) : Nat :=
  (s.likes.filter (fun l => l.user_id == user_id && l.publication_id == pub_id)).length

/-- The `unique_like` constraint of the likes table: at most one row per
(user, publication) pair. -/
def Store.likeUnique (s : Store) : Prop := ∀ u p, likeCount s u p ≤ 1

/-- Appending one Like row adds one to the count of its own pair and
leaves every other pair's count unchanged. -/
theorem likeCount_append_single (l : List LikeRow) (x : LikeRow) (u p : Nat) :
    ((l ++ [x]).filter (fun r => r.user_id == u && r.publication_id == p)).length =
      (l.filter (fun r => r.user_id == u && r.publication_id == p)).length +
        (if x.user_id = u ∧ x.publication_id = p then 1 else 0) := by
  rw [List.filter_append]
  by_cases h1 : x.user_id = u <;> by_cases h2 : x.publication_id = p <;>
    simp [h1, h2]

/-- A pair with no Like row has count zero. -/
theorem likeCount_eq_zero (s : Store) (u p : Nat)
    (h : existing_like s u p = false) : likeCount s u p = 0 := by
  have hall := List.any_eq_false.mp h
  simp only [likeCount, List.length_eq_zero, List.filter_eq_nil_iff]
  intro a ha
  exact hall a ha

/-- Notification creation does not touch the likes table. -/
theorem create_notification_likes (s : Store) (u : Nat) (typ content : String)
    (sid : Option Nat) (pid : Option Nat) :
    (create_notification s u typ content sid pid).likes = s.likes := by
  unfold create_notification
  split <;> rfl

/-- Notification creation does not touch the publications table. -/
theorem create_notification_pubs (s : Store) (u : Nat) (typ content : String)
    (sid : Option Nat) (pid : Option Nat) :
    (create_notification s u typ content sid pid).publications = s.publications := by
  unfold create_notification
  split <;> rfl

/-- CLAIM C6. The like route keeps at most one Like row per
(user, publication) pair; a second like by the same user on the same
publication answers the conflict and leaves the state — in particular
the likes counter — untouched; a first like on an existing publication
inserts the row (count 0 to 1) and increments the publication's counter
by exactly one in the same operation. -/
theorem like_at_most_once (user : UserRec) (pub_id : Nat) (s : Store)
    (hinv : s.likeUnique) :
    (like user pub_id s).2.likeUnique ∧
    (existing_like s user.id pub_id = true → (findPub s pub_id).isSome →
      (like user pub_id s).1 = LikeResult.alreadyLiked ∧ (like user pub_id s).2 = s) ∧
    (existing_like s user.id pub_id = false →
      ∀ P, findPub s pub_id = some P →
        likeCount (like user pub_id s).2 user.id pub_id = 1 ∧
        findPub (like user pub_id s).2 pub_id = some P.increment_likes ∧
        (like user pub_id s).1 = LikeResult.ok (P.likes + 1)) := by
  have hlikes : ∀ P, findPub s pub_id = some P →
      existing_like s user.id pub_id = false →
      (like user pub_id s).2.likes = s.likes ++ [⟨user.id, pub_id⟩] := by
    intro P hP hex
    by_cases hn : (P.user_id != user.id) = true <;>
      simp [like, hP, hex, hn, create_notification_likes]
  have hcount : ∀ P, findPub s pub_id = some P →
      existing_like s user.id pub_id = false →
      ∀ u p, likeCount (like user pub_id s).2 u p =
        likeCount s u p + (if u = user.id ∧ p = pub_id then 1 else 0) := by
    intro P hP hex u p
    have := likeCount_append_single s.likes ⟨user.id, pub_id⟩ u p
    simp only [likeCount, hlikes P hP hex, this]
    by_cases h1 : u = user.id <;> by_cases h2 : p = pub_id <;>
      simp [h1, h2] <;> omega
  refine ⟨?_, ?_, ?_⟩
  · cases hP : findPub s pub_id with
    | none => simpa [like, hP] using hinv
    | some P =>
      by_cases hex : existing_like s user.id pub_id
      · simpa [like, hP, hex] using hinv
      · intro u p
        rw [hcount P hP (by simpa using hex) u p]
        by_cases h1 : u = user.id ∧ p = pub_id
        · rw [if_pos h1, likeCount_eq_zero s u p (by rw [h1.1, h1.2]; simpa using hex)]
        · rw [if_neg h1]
          simpa using hinv u p
  · intro hex hsome
    cases hP : findPub s pub_id with
    | none => rw [hP] at hsome; cases hsome
    | some P => simp [like, hP, hex]
  · intro hex P hP
    refine ⟨?_, ?_, ?_⟩
    · rw [hcount P hP hex user.id pub_id, likeCount_eq_zero s _ _ hex, if_pos ⟨rfl, rfl⟩]
    · have hpubs : (like user pub_id s).2.publications =
          updateFirstBy Publication.id Publication.increment_likes pub_id
            s.publications := by
        by_cases hn : (P.user_id != user.id) = true <;>
          simp [like, hP, hex, hn, create_notification_pubs]
      show (like user pub_id s).2.publications.find? (fun p => p.id == pub_id) = _
      rw [hpubs,
        find?_updateFirstBy Publication.id Publication.increment_likes pub_id
          (fun _ => rfl) s.publications]
      rw [show s.publications.find? (fun p => p.id == pub_id) = some P from hP]
      rfl
    · by_cases hn : (P.user_id != user.id) = true <;>
        simp [like, hP, hex, hn]

/-- Witness for C6: an empty store with one pending-free publication;
user 1 likes publication 10 owned by user 2. -/
theorem like_at_most_once_witness :
    existing_like ⟨[⟨10, "approved", 0, 0, 2, none⟩], [], [], [], 11⟩ 1 10 = false ∧
      likeCount (like ⟨1, "user"⟩ 10
          ⟨[⟨10, "approved", 0, 0, 2, none⟩], [], [], [], 11⟩).2 1 10 = 1 ∧
      findPub (like ⟨1, "user"⟩ 10
          ⟨[⟨10, "approved", 0, 0, 2, none⟩], [], [], [], 11⟩).2 10 =
        some ⟨10, "approved", 0, 1, 2, none⟩ ∧
      (like ⟨1, "user"⟩ 10
          ⟨[⟨10, "approved", 0, 0, 2, none⟩], [], [], [], 11⟩).1 =
        LikeResult.ok 1 := by
  have hinv : Store.likeUnique ⟨[⟨10, "approved", 0, 0, 2, none⟩], [], [], [], 11⟩ := by
    intro u p
    simp [likeCount]
  have h := (like_at_most_once ⟨1, "user"⟩ 10
    ⟨[⟨10, "approved", 0, 0, 2, none⟩], [], [], [], 11⟩ hinv).2.2 rfl
    ⟨10, "approved", 0, 0, 2, none⟩ rfl
  exact ⟨rfl, h.1, h.2.1, h.2.2⟩

/-- Well-formedness of the conversations table: rows are stored in
canonical order (user1_id ≤ user2_id, which `get_or_create` guarantees)
and no two distinct rows share the same unordered user pair. -/
def ConvState.wf (s : ConvState) : Prop :=
  (∀ c ∈ s.convs, c.user1_id ≤ c.user2_id) ∧
  (∀ c1 ∈ s.convs, ∀ c2 ∈ s.convs,
    min c1.user1_id c1.user2_id = min c2.user1_id c2.user2_id →
    max c1.user1_id c1.user2_id = max c2.user1_id c2.user2_id → c1 = c2)

/-- The swap at the top of `get_or_create` computes the minimum. -/
theorem swap_fst_eq_min (u1 u2 : Nat) : (if u1 > u2 then u2 else u1) = min u1 u2 := by
  rcases Nat.lt_or_ge u2 u1 with h | h
  · rw [if_pos h, Nat.min_eq_right (by omega)]
  · rw [if_neg (by omega), Nat.min_eq_left (by omega)]

/-- The swap at the top of `get_or_create` computes the maximum. -/
theorem swap_snd_eq_max (u1 u2 : Nat) : (if u1 > u2 then u1 else u2) = max u1 u2 := by
  rcases Nat.lt_or_ge u2 u1 with h | h
  · rw [if_pos h, Nat.max_eq_left (by omega)]
  · rw [if_neg (by omega), Nat.max_eq_right (by omega)]

/-- Any call of `get_or_create` is the call on the canonicalized pair. -/
theorem get_or_create_min_max (u1 u2 : Nat) (s : ConvState) :
    Conversation.get_or_create u1 u2 s =
      Conversation.get_or_create (min u1 u2) (max u1 u2) s := by
  simp only [Conversation.get_or_create, swap_fst_eq_min, swap_snd_eq_max]
  rw [show min (min u1 u2) (max u1 u2) = min u1 u2 from Nat.min_eq_left (by omega)]
  rw [show max (min u1 u2) (max u1 u2) = max u1 u2 from Nat.max_eq_right (by omega)]

/-- CLAIM C8. Conversation lookup is symmetric — `get_or_create(A,B)` and
`get_or_create(B,A)` return the same conversation and the same resulting
table — and the operation preserves the invariant that at most one
conversation row exists per unordered user pair. -/
theorem get_or_create_symm (user1_id user2_id : Nat) (s : ConvState) (hwf : s.wf) :
    Conversation.get_or_create user1_id user2_id s =
        Conversation.get_or_create user2_id user1_id s ∧
      (Conversation.get_or_create user1_id user2_id s).2.wf := by
  constructor
  · rw [get_or_create_min_max, get_or_create_min_max user2_id user1_id,
      Nat.min_comm user2_id user1_id, Nat.max_comm user2_id user1_id]
  · rw [get_or_create_min_max]
    have hab : min user1_id user2_id ≤ max user1_id user2_id := by omega
    set a := min user1_id user2_id with ha
    set b := max user1_id user2_id with hb
    simp only [Conversation.get_or_create, swap_fst_eq_min, swap_snd_eq_max,
      Nat.min_eq_left hab, Nat.max_eq_right hab]
    cases hfind : s.convs.find? (fun c => c.user1_id == a && c.user2_id == b) with
    | some c => exact hwf
    | none =>
      have hmiss := List.find?_eq_none.mp hfind
      constructor
      · intro c hc
        rcases List.mem_append.mp hc with hc | hc
        · exact hwf.1 c hc
        · rw [List.mem_singleton.mp hc]
          exact hab
      · intro c1 hc1 c2 hc2 hmin hmax
        rcases List.mem_append.mp hc1 with hc1 | hc1 <;>
          rcases List.mem_append.mp hc2 with hc2 | hc2
        · exact hwf.2 c1 hc1 c2 hc2 hmin hmax
        · exfalso
          rw [List.mem_singleton.mp hc2] at hmin hmax
          have h1 : c1.user1_id ≤ c1.user2_id := hwf.1 c1 hc1
          rw [Nat.min_eq_left h1] at hmin
          rw [Nat.max_eq_right h1] at hmax
          rw [Nat.min_eq_left hab] at hmin
          rw [Nat.max_eq_right hab] at hmax
          exact hmiss c1 hc1 (by simp [hmin, hmax])
        · exfalso
          rw [List.mem_singleton.mp hc1] at hmin hmax
          have h2 : c2.user1_id ≤ c2.user2_id := hwf.1 c2 hc2
          rw [Nat.min_eq_left h2] at hmin
          rw [Nat.max_eq_right h2] at hmax
          rw [Nat.min_eq_left hab] at hmin
          rw [Nat.max_eq_right hab] at hmax
          exact hmiss c2 hc2 (by simp [← hmin, ← hmax])
        · rw [List.mem_singleton.mp hc1, List.mem_singleton.mp hc2]

/-- Witness for C8: creating the conversation between users 4 and 2 from
an empty table, in both argument orders. -/
theorem get_or_create_symm_witness :
    Conversation.get_or_create 4 2 ⟨[], 1⟩ = Conversation.get_or_create 2 4 ⟨[], 1⟩ ∧
      (Conversation.get_or_create 4 2 ⟨[], 1⟩).2.wf := by
  have hwf : ConvState.wf ⟨[], 1⟩ := by
    constructor
    · intro c hc
      cases hc
    · intro c1 hc1
      cases hc1
  exact get_or_create_symm 4 2 ⟨[], 1⟩ hwf

/-- The moderation status invariant: every stored publication's status is
one of pending, approved, rejected. -/
def Store.statusOk (s : Store) : Prop :=
  ∀ p ∈ s.publications, p.status = "pending" ∨ p.status = "approved" ∨
    p.status = "rejected"

/-- The (id, status) projection of the publications table: the statuses
every publication currently has. -/
def statuses (s : Store) : List (Nat × String) :=
  s.publications.map (fun p => (p.id, p.status))

/-- Key-preserving per-row updates act pointwise on membership. -/
theorem mem_updateFirstBy {α : Type} (key : α → Nat) (f : α → α) (i : Nat)
    (l : List α) (y : α) (hy : y ∈ updateFirstBy key f i l) :
    y ∈ l ∨ ∃ x ∈ l, y = f x := by
  induction l with
  | nil => cases hy
  | cons x xs ih =>
    by_cases h : key x = i
    · rw [updateFirstBy, if_pos h] at hy
      rcases List.mem_cons.mp hy with hy | hy
      · exact Or.inr ⟨x, List.mem_cons_self x xs, hy⟩
      · exact Or.inl (List.mem_cons_of_mem x hy)
    · rw [updateFirstBy, if_neg h] at hy
      rcases List.mem_cons.mp hy with hy | hy
      · exact Or.inl (hy ▸ List.mem_cons_self x xs)
      · rcases ih hy with hy | ⟨z, hz, hyz⟩
        · exact Or.inl (List.mem_cons_of_mem x hy)
        · exact Or.inr ⟨z, List.mem_cons_of_mem x hz, hyz⟩

/-- A per-row update that does not touch the status leaves the (id,
status) projection of the table unchanged. -/
theorem statuses_updateFirstBy (f : Publication → Publication) (i : Nat)
    (hf : ∀ p, (f p).id = p.id ∧ (f p).status = p.status) (l : List Publication) :
    (updateFirstBy Publication.id f i l).map (fun p => (p.id, p.status)) =
      l.map (fun p => (p.id, p.status)) := by
  induction l with
  | nil => rfl
  | cons x xs ih =>
    by_cases h : x.id = i
    · rw [updateFirstBy, if_pos h]
      simp [(hf x).1, (hf x).2]
    · rw [updateFirstBy, if_neg h]
      simp [ih]

/-- CLAIM C9. Moderation statuses: a freshly uploaded publication has
status "pending"; `approve`/`reject` produce "approved"/"rejected" and
are idempotent in effect (repeating them re-sets the same status, with no
other field changed twice); the admin routes refuse non-admin callers
with no state change; and the operations that are not approve/reject —
upload, like, watch — never change any existing publication's status.
Together these close the status set {pending, approved, rejected} under
every modelled operation. -/
theorem publication_status_machine (s : Store) (hok : s.statusOk) :
    (∀ user videoFile category_id, (upload user videoFile category_id s).statusOk ∧
      ∀ p ∈ (upload user videoFile category_id s).publications,
        p ∈ s.publications ∨ p.status = "pending") ∧
    (∀ p : Publication, (Publication.approve p).status = "approved" ∧
      (Publication.reject p).status = "rejected" ∧
      Publication.approve (Publication.approve p) = Publication.approve p ∧
      Publication.reject (Publication.reject p) = Publication.reject p) ∧
    (∀ caller pub_id, (caller.map UserRec.is_admin ≠ some true) →
      admin_approve_publication caller pub_id s = s ∧
      admin_reject_publication caller pub_id s = s) ∧
    (∀ caller pub_id, (admin_approve_publication caller pub_id s).statusOk ∧
      (admin_reject_publication caller pub_id s).statusOk) ∧
    (∀ user pub_id, statuses (like user pub_id s).2 = statuses s) ∧
    (∀ current_user visitor_token remote_addr pub_id,
      statuses (watch current_user visitor_token remote_addr pub_id s) = statuses s) := by
  refine ⟨?_, ?_, ?_, ?_, ?_, ?_⟩
  · intro user videoFile category_id
    have hshape : (upload user videoFile category_id s).publications = s.publications ∨
        (upload user videoFile category_id s).publications =
          s.publications ++ [⟨s.nextPubId, "pending", 0, 0, user.id, category_id⟩] := by
      cases videoFile with
      | none => exact Or.inl rfl
      | some orig =>
        by_cases ho : orig = ""
        · left
          simp [upload, ho]
        · by_cases ha : allowed_file orig ALLOWED_VIDEO_EXTENSIONS
          · right
            simp [upload, ho, ha]
          · left
            simp [upload, ho, ha]
    constructor
    · intro p hp
      rcases hshape with h | h <;> rw [h] at hp
      · exact hok p hp
      · rcases List.mem_append.mp hp with hp | hp
        · exact hok p hp
        · rw [List.mem_singleton.mp hp]
          left; rfl
    · intro p hp
      rcases hshape with h | h <;> rw [h] at hp
      · exact Or.inl hp
      · rcases List.mem_append.mp hp with hp | hp
        · exact Or.inl hp
        · right
          rw [List.mem_singleton.mp hp]
  · intro p
    exact ⟨rfl, rfl, rfl, rfl⟩
  · intro caller pub_id hnadm
    match caller with
    | none => exact ⟨rfl, rfl⟩
    | some u =>
      have hu : u.is_admin = false := by
        cases hadm : u.is_admin
        · rfl
        · exact absurd (by simp [hadm]) hnadm
      constructor <;> simp [admin_approve_publication, admin_reject_publication, hu]
  · intro caller pub_id
    constructor
    · match caller with
      | none => exact hok
      | some u =>
        by_cases hu : u.is_admin
        · cases hP : findPub s pub_id with
          | none => simpa [admin_approve_publication, hu, hP] using hok
          | some P =>
            simp only [admin_approve_publication, hu, hP, Bool.not_true,
              Bool.false_eq_true, if_false]
            intro p hp
            rcases mem_updateFirstBy Publication.id Publication.approve pub_id
              s.publications p hp with hp | ⟨x, _, hpx⟩
            · exact hok p hp
            · rw [hpx]
              right; left; rfl
        · simpa [admin_approve_publication, hu] using hok
    · match caller with
      | none => exact hok
      | some u =>
        by_cases hu : u.is_admin
        · cases hP : findPub s pub_id with
          | none => simpa [admin_reject_publication, hu, hP] using hok
          | some P =>
            simp only [admin_reject_publication, hu, hP, Bool.not_true,
              Bool.false_eq_true, if_false]
            intro p hp
            rcases mem_updateFirstBy Publication.id Publication.reject pub_id
              s.publications p hp with hp | ⟨x, _, hpx⟩
            · exact hok p hp
            · rw [hpx]
              right; right; rfl
        · simpa [admin_reject_publication, hu] using hok
  · intro user pub_id
    cases hP : findPub s pub_id with
    | none => simp [like, hP]
    | some P =>
      by_cases hex : existing_like s user.id pub_id
      · simp [like, hP, hex]
      · have hs : statuses (like user pub_id s).2 =
            (updateFirstBy Publication.id Publication.increment_likes pub_id
              s.publications).map (fun p => (p.id, p.status)) := by
          by_cases hn : (P.user_id != user.id) = true <;>
            simp [like, hP, hex, hn, statuses, create_notification_pubs]
        rw [hs, statuses_updateFirstBy Publication.increment_likes pub_id
          (fun p => ⟨rfl, rfl⟩) s.publications]
        rfl
  · intro current_user visitor_token remote_addr pub_id
    have hpubs : ∀ (uid : Option Nat) (sid ip : Option String),
        (add_view s pub_id uid sid ip).2.publications = s.publications := by
      intro uid sid ip
      unfold add_view
      split <;> rfl
    cases hP : findPub s pub_id with
    | none => simp [watch, hP]
    | some P =>
      cases hden : watch_denied current_user P with
      | true => simp [watch, hP, hden]
      | false =>
        by_cases hadd : (add_view s pub_id (current_user.map UserRec.id)
            (if !truthyN (current_user.map UserRec.id) then some visitor_token else none)
            (some remote_addr)).1 = true
        · simp only [watch, hP, hden, Bool.false_eq_true, if_false, hadd, if_true,
            statuses, hpubs]
          exact statuses_updateFirstBy Publication.increment_views pub_id
            (fun p => ⟨rfl, rfl⟩) s.publications
        · simp only [watch, hP, hden, Bool.false_eq_true, if_false]
          rw [if_neg hadd]
          simp [statuses, hpubs]

/-- Witness for C9 on a one-publication store. -/
theorem publication_status_machine_witness :
    Store.statusOk ⟨[⟨10, "pending", 0, 0, 2, none⟩], [], [], [], 11⟩ ∧
      statuses (admin_approve_publication (some ⟨1, "admin"⟩) 10
          ⟨[⟨10, "pending", 0, 0, 2, none⟩], [], [], [], 11⟩) = [(10, "approved")] ∧
      admin_approve_publication (some ⟨3, "user"⟩) 10
          ⟨[⟨10, "pending", 0, 0, 2, none⟩], [], [], [], 11⟩ =
        ⟨[⟨10, "pending", 0, 0, 2, none⟩], [], [], [], 11⟩ := by
  have hok : Store.statusOk ⟨[⟨10, "pending", 0, 0, 2, none⟩], [], [], [], 11⟩ := by
    intro p hp
    rcases List.mem_singleton.mp hp with rfl
    left; rfl
  have h := (publication_status_machine
    ⟨[⟨10, "pending", 0, 0, 2, none⟩], [], [], [], 11⟩ hok).2.2.1
    (some ⟨3, "user"⟩) 10 (by decide)
  exact ⟨hok, by decide, h.1⟩

/-- A returned notifier dict is well shaped: it has a `success` key;
success true comes with a `result` or `updates` key, success false with
an `error` key. -/
def wellShaped (d : PyDict) : Prop :=
  (d.get "success" = some (Val.vBool true) ∧
    ((d.get "result").isSome ∨ (d.get "updates").isSome)) ∨
  (d.get "success" = some (Val.vBool false) ∧ (d.get "error").isSome)

/-- CLAIM C10. Every external-notifier operation — send a captioned
photo, send a text message, poll for updates — returns a dict with a
`success` key, carrying `result`/`updates` on success and `error` on any
failure; by totality of the embedded functions over every runtime
outcome (every exception the bodies can raise is caught and converted),
nothing ever escapes the boundary. -/
theorem telegram_uniform_result_shape :
    (∀ chat_id photo_path caption sender_name outcome,
      wellShaped (send_photo_sync chat_id photo_path caption sender_name outcome)) ∧
    (∀ chat_id text parse_mode outcome,
      wellShaped (send_message_sync chat_id text parse_mode outcome)) ∧
    (∀ offset outcome, wellShaped (get_updates offset outcome)) := by
  refine ⟨?_, ?_, ?_⟩
  · intro chat_id photo_path caption sender_name outcome
    cases houtcome : outcome (resolveCaption caption sender_name) with
    | fileNotFound =>
      right
      constructor <;> simp [send_photo_sync, houtcome, PyDict.get]
    | requestException msg =>
      right
      constructor <;> simp [send_photo_sync, houtcome, PyDict.get]
    | otherException msg =>
      right
      constructor <;> simp [send_photo_sync, houtcome, PyDict.get]
    | response r =>
      by_cases hr : r.ok
      · left
        constructor <;> simp [send_photo_sync, houtcome, hr, PyDict.get]
      · right
        constructor <;> simp [send_photo_sync, houtcome, hr, PyDict.get]
  · intro chat_id text parse_mode outcome
    match outcome with
    | HttpOutcome.exception msg =>
      right
      constructor <;> simp [send_message_sync, PyDict.get]
    | HttpOutcome.response r =>
      by_cases hr : r.ok
      · left
        constructor <;> simp [send_message_sync, hr, PyDict.get]
      · right
        constructor <;> simp [send_message_sync, hr, PyDict.get]
  · intro offset outcome
    match outcome with
    | HttpOutcome.exception msg =>
      right
      constructor <;> simp [get_updates, PyDict.get]
    | HttpOutcome.response r =>
      by_cases hr : r.ok
      · left
        constructor <;> simp [get_updates, hr, PyDict.get]
      · right
        constructor <;> simp [get_updates, hr, PyDict.get]

/-- The identity a `watch` call is deduplicated by (spec 4.2): an
authenticated user id, or the anonymous per-browser-session token. -/
inductive ViewIdentity where
  | user (id : Nat)
  | anon (token : String)
  deriving DecidableEq

/-- Identity resolution as the route computes it: a (truthy) logged-in
user id wins; otherwise the visitor's session token. -/
def resolveIdentity (current_user : Option UserRec) (visitor_token : String) :
    ViewIdentity :=
  match current_user with
  | some u => if u.id != 0 then .user u.id else .anon visitor_token
  | none => .anon visitor_token

/-- Identities as they occur at runtime: user ids come from the users
table (SQLite keys, at least 1) and anonymous tokens are uuid4 strings
(nonempty). -/
def validIdentity : ViewIdentity → Prop
  | .user id => id ≠ 0
  | .anon token => token ≠ ""

/-- Whether the views table already has a row for this identity and
publication, matching the two dedup queries of `View.has_viewed`. -/
def identityViewed (s : Store) (I : ViewIdentity) (pub_id : Nat) : Bool :=
  match I with
  | .user uid =>
    s.views.any (fun v => v.user_id == some uid && v.publication_id == pub_id)
  | .anon tok =>
    s.views.any (fun v => v.session_id == some tok && v.publication_id == pub_id)

/-- The denormalized views counter of a publication (0 when absent). -/
def pubViews (s : Store) (pub_id : Nat) : Nat :=
  ((findPub s pub_id).map Publication.views).getD 0

/-- Arguments of one `watch` request. -/
structure WatchCall where
  current_user : Option UserRec
  visitor_token : String
  remote_addr : String
  deriving DecidableEq

/-- A sequence of `watch` requests against the same publication. -/
def applyWatches (pub_id : Nat) (calls : List WatchCall) (s : Store) : Store :=
  calls.foldl
    (fun st c => watch c.current_user c.visitor_token c.remote_addr pub_id st) s

/-- The dedup lookup of `has_viewed`, on the arguments `watch` passes it,
asks exactly whether the resolved identity has a stored view row. -/
theorem has_viewed_eq_identityViewed (s : Store) (pub_id : Nat)
    (cu : Option UserRec) (vt : String) (I : ViewIdentity)
    (hres : resolveIdentity cu vt = I) (hI : validIdentity I) :
    has_viewed s pub_id (cu.map UserRec.id)
        (if !truthyN (cu.map UserRec.id) then some vt else none) =
      identityViewed s I pub_id := by
  match cu with
  | none =>
    have hI' : vt ≠ "" := by
      rw [← hres] at hI
      exact hI
    subst hres
    simp [has_viewed, truthyN, truthyS, identityViewed, resolveIdentity, hI']
  | some u =>
    by_cases hu : u.id = 0
    · have hres' : I = .anon vt := by
        rw [← hres]
        simp [resolveIdentity, hu]
      have hI' : vt ≠ "" := by
        rw [hres'] at hI
        exact hI
      subst hres'
      simp [has_viewed, truthyN, truthyS, identityViewed, hu, hI']
    · have hres' : I = .user u.id := by
        rw [← hres]
        simp [resolveIdentity, hu]
      subst hres'
      simp [has_viewed, truthyN, identityViewed, hu]

/-- A watch by an identity that already has a view row changes nothing:
the dedup check refuses the insert and no counter is touched. -/
theorem watch_noop_of_viewed (cu : Option UserRec) (vt ra : String) (pub_id : Nat)
    (s : Store) (I : ViewIdentity)
    (hres : resolveIdentity cu vt = I) (hI : validIdentity I)
    (hv : identityViewed s I pub_id = true) :
    watch cu vt ra pub_id s = s := by
  have hhv := has_viewed_eq_identityViewed s pub_id cu vt I hres hI
  have hfalse : has_viewed s pub_id (cu.map UserRec.id)
      (if !truthyN (cu.map UserRec.id) then some vt else none) = true :=
    hhv.trans hv
  have hadd : add_view s pub_id (cu.map UserRec.id)
      (if !truthyN (cu.map UserRec.id) then some vt else none) (some ra) =
      (false, s) := by
    unfold add_view
    rw [if_pos hfalse]
  cases hP : findPub s pub_id with
  | none => simp [watch, hP]
  | some P =>
    cases hden : watch_denied cu P with
    | true => simp [watch, hP, hden]
    | false =>
      simp only [watch, hP, hden, Bool.false_eq_true, if_false, hadd]

/-- A watch by an identity with no stored view row either changes
nothing (missing or non-visible publication) or records the identity's
view row and increments the publication's counter by exactly one. -/
theorem watch_step_of_not_viewed (cu : Option UserRec) (vt ra : String)
    (pub_id : Nat) (s : Store) (I : ViewIdentity)
    (hres : resolveIdentity cu vt = I) (hI : validIdentity I)
    (hv : identityViewed s I pub_id = false) :
    watch cu vt ra pub_id s = s ∨
      (identityViewed (watch cu vt ra pub_id s) I pub_id = true ∧
        pubViews (watch cu vt ra pub_id s) pub_id = pubViews s pub_id + 1) := by
  have hhv := has_viewed_eq_identityViewed s pub_id cu vt I hres hI
  have hfalse : has_viewed s pub_id (cu.map UserRec.id)
      (if !truthyN (cu.map UserRec.id) then some vt else none) = false :=
    hhv.trans hv
  have hadd : add_view s pub_id (cu.map UserRec.id)
      (if !truthyN (cu.map UserRec.id) then some vt else none) (some ra) =
      (true, { s with views := s.views ++ [⟨cu.map UserRec.id, pub_id,
        (if !truthyN (cu.map UserRec.id) then some vt else none), some ra⟩] }) := by
    unfold add_view
    rw [if_neg (by rw [hfalse]; exact Bool.false_ne_true)]
  cases hP : findPub s pub_id with
  | none => exact Or.inl (by simp [watch, hP])
  | some P =>
    cases hden : watch_denied cu P with
    | true => exact Or.inl (by simp [watch, hP, hden])
    | false =>
      right
      have hviews : (watch cu vt ra pub_id s).views =
          s.views ++ [⟨cu.map UserRec.id, pub_id,
            (if !truthyN (cu.map UserRec.id) then some vt else none), some ra⟩] := by
        simp only [watch, hP, hden, Bool.false_eq_true, if_false, hadd, if_true]
      have hpubs : (watch cu vt ra pub_id s).publications =
          updateFirstBy Publication.id Publication.increment_views pub_id
            s.publications := by
        simp only [watch, hP, hden, Bool.false_eq_true, if_false, hadd, if_true]
      constructor
      · match cu with
        | none =>
          have hI' : vt ≠ "" := by
            rw [← hres] at hI
            exact hI
          subst hres
          simp [identityViewed, hviews, truthyN, resolveIdentity]
        | some u =>
          by_cases hu : u.id = 0
          · have hres' : I = .anon vt := by
              rw [← hres]
              simp [resolveIdentity, hu]
            subst hres'
            simp [identityViewed, hviews, truthyN, hu]

          · have hres' : I = .user u.id := by
              rw [← hres]
              simp [resolveIdentity, hu]
            subst hres'
            simp [identityViewed, hviews, truthyN, hu]

      · have hPv : pubViews s pub_id = P.views := by
          simp [pubViews, hP]
        have hMain : pubViews (watch cu vt ra pub_id s) pub_id = P.views + 1 := by
          show (((watch cu vt ra pub_id s).publications.find?
            (fun p => p.id == pub_id)).map Publication.views).getD 0 = P.views + 1
          rw [hpubs,
            find?_updateFirstBy Publication.id Publication.increment_views pub_id
              (fun _ => rfl) s.publications,
            show s.publications.find? (fun p => p.id == pub_id) = some P from hP]
          rfl
        rw [hMain, hPv]

/-- Once the identity's view row is stored, any number of further same-
identity watches leave the store untouched. -/
theorem applyWatches_noop_of_viewed (I : ViewIdentity) (pub_id : Nat)
    (calls : List WatchCall) (s : Store)
    (hI : validIdentity I)
    (hcalls : ∀ c ∈ calls, resolveIdentity c.current_user c.visitor_token = I)
    (hv : identityViewed s I pub_id = true) :
    applyWatches pub_id calls s = s := by
  induction calls with
  | nil => rfl
  | cons c rest ih =>
    have h1 : watch c.current_user c.visitor_token c.remote_addr pub_id s = s :=
      watch_noop_of_viewed c.current_user c.visitor_token c.remote_addr pub_id s I
        (hcalls c (List.mem_cons_self c rest)) hI hv
    show applyWatches pub_id rest
      (watch c.current_user c.visitor_token c.remote_addr pub_id s) = s
    rw [h1]
    exact ih (fun c' hc' => hcalls c' (List.mem_cons_of_mem c hc'))

/-- CLAIM C7. Repeated `watch` calls from the same resolved identity —
the authenticated user id when one is present, otherwise the anonymous
per-browser-session token — increment a publication's view counter at
most once: any sequence of same-identity calls raises the counter by at
most one, and if the identity already has a recorded view, the calls
change nothing at all. -/
theorem watch_increments_at_most_once (I : ViewIdentity) (pub_id : Nat)
    (calls : List WatchCall) (s : Store)
    (hI : validIdentity I)
    (hcalls : ∀ c ∈ calls, resolveIdentity c.current_user c.visitor_token = I) :
    pubViews (applyWatches pub_id calls s) pub_id ≤ pubViews s pub_id + 1 ∧
      (identityViewed s I pub_id = true → applyWatches pub_id calls s = s) := by
  constructor
  · induction calls generalizing s with
    | nil => exact Nat.le_succ _
    | cons c rest ih =>
      have hrest : ∀ c' ∈ rest, resolveIdentity c'.current_user c'.visitor_token = I :=
        fun c' hc' => hcalls c' (List.mem_cons_of_mem c hc')
      have hc := hcalls c (List.mem_cons_self c rest)
      show pubViews (applyWatches pub_id rest
        (watch c.current_user c.visitor_token c.remote_addr pub_id s)) pub_id ≤ _
      cases hv : identityViewed s I pub_id with
      | true =>
        rw [watch_noop_of_viewed c.current_user c.visitor_token c.remote_addr
          pub_id s I hc hI hv]
        rw [applyWatches_noop_of_viewed I pub_id rest s hI hrest hv]
        omega
      | false =>
        rcases watch_step_of_not_viewed c.current_user c.visitor_token c.remote_addr
            pub_id s I hc hI hv with h | ⟨hview, hcnt⟩
        · rw [h]
          exact ih s hrest
        · rw [applyWatches_noop_of_viewed I pub_id rest _ hI hrest hview]
          omega
  · intro hv
    exact applyWatches_noop_of_viewed I pub_id calls s hI hcalls hv

/-- Witness for C7: anonymous visitor with token S1 watches approved
publication 10 twice; the counter ends at most one above its start (here
it goes 0 to 1). -/
theorem watch_increments_at_most_once_witness :
    validIdentity (ViewIdentity.anon "S1") ∧
      pubViews (applyWatches 10 [⟨none, "S1", "ip1"⟩, ⟨none, "S1", "ip2"⟩]
          ⟨[⟨10, "approved", 0, 0, 2, none⟩], [], [], [], 11⟩) 10 ≤
        pubViews ⟨[⟨10, "approved", 0, 0, 2, none⟩], [], [], [], 11⟩ 10 + 1 := by
  have h := watch_increments_at_most_once (ViewIdentity.anon "S1") 10
    [⟨none, "S1", "ip1"⟩, ⟨none, "S1", "ip2"⟩]
    ⟨[⟨10, "approved", 0, 0, 2, none⟩], [], [], [], 11⟩
    (by show ("S1" : String) ≠ ""; decide)
    (by intro c hc; rcases List.mem_cons.mp hc with rfl | hc <;> simp_all [resolveIdentity])
  exact ⟨by show ("S1" : String) ≠ ""; decide, h.1⟩

end TheSauce
